import Mathlib

/-!
Verification development for the `evalgo-org/s3service` repository: a shallow
embedding of the semantic-action dispatch layer (cmd/semantic_api.go and the
typed handler variant), the REST adapter, and the error helper, together with
theorems settling the specification claims.

External effects (the S3 SDK calls, local file I/O, the system clock) are
modelled by an oracle record `StoreEnv` supplying the outcome of each fallible
external step, and each handler returns, besides the mutated action envelope
and the HTTP status code, the list of store calls it attempted.
-/

deriving instance DecidableEq for Except

namespace S3Service

/-- Status vocabulary written onto the envelope (`"CompletedActionStatus"` /
`"FailedActionStatus"` string constants in the source; `Potential` is the
pre-dispatch state described by the data model). -/
inductive ActionStatus where
  | PotentialActionStatus
  | CompletedActionStatus
  | FailedActionStatus
deriving DecidableEq, Repr

/-- Schema.org PropertyValue, as used for the embedded error message
(`semantic.PropertyValue{Type: "PropertyValue", Name: "error", Value: message}`). -/
structure PropertyValue where
  type_ : String
  name : String
  value : String
deriving DecidableEq, Repr

/-- S3Object descriptor (eve semantic type): key/identifier, display name,
local or remote content URL, size, encoding format, upload date. -/
structure S3Object where
  type_ : String := ""
  identifier : String := ""
  name : String := ""
  contentUrl : String := ""
  contentSize : Int := 0
  encodingFormat : String := ""
  uploadDate : String := ""
deriving DecidableEq, Repr

/-- Bucket/target descriptor: bucket name plus endpoint, region and the two
credential fields, all caller-supplied per request. An empty string models an
absent field. -/
structure S3Bucket where
  url : String := ""
  region : String := ""
  accessKey : String := ""
  secretKey : String := ""
  bucketName : String := ""
deriving DecidableEq, Repr

/-- The credential tuple produced by a successful extraction. -/
structure S3Creds where
  url : String
  region : String
  accessKey : String
  secretKey : String
  bucketName : String
deriving DecidableEq, Repr

/-- Result slot of a terminal action: a single object descriptor
(upload/download) or a list of them (list). -/
inductive ResultValue where
  | obj (o : S3Object)
  | objs (l : List S3Object)
deriving DecidableEq, Repr

/-- The semantic action envelope: @type discriminator, optional object
descriptor, target/bucket descriptor, request-supplied target key, list query,
and the mutable status/result/error/timestamps fields. -/
structure SemanticAction where
  type_ : String := ""
  identifier : String := ""
  name : String := ""
  targetUrl : String := ""
  query : String := ""
  target : S3Bucket := {}
  object : Option S3Object := none
  actionStatus : ActionStatus := .PotentialActionStatus
  startTime : String := ""
  endTime : String := ""
  result : Option ResultValue := none
  error : Option PropertyValue := none
deriving DecidableEq, Repr

/-- One S3 store call attempted by a handler (HetznerUploadFile, GetObject,
DeleteObject, ListObjectsV2 with its optional Prefix). -/
inductive StoreCall where
  | uploadFile (endpoint accessKey secretKey bucket filePath key : String)
  | getObject (bucket key : String)
  | deleteObject (bucket key : String)
  | listObjectsV2 (bucket : String) (pfx : Option String)
deriving DecidableEq, Repr

/-- One entry of a ListObjectsV2 result page (Key, Size, LastModified already
formatted as RFC3339). -/
structure ListedObject where
  key : String
  size : Int
  lastModified : String
deriving DecidableEq, Repr

/-- Oracle for the outcomes of the external fallible steps a handler performs,
in source order: HetznerUploadFile, os.Stat (yielding the file size),
createS3Client, GetObject, os.Create, io.Copy (yielding the copied size),
DeleteObject, ListObjectsV2 (yielding the single result page), and the
current RFC3339 timestamp. -/
structure StoreEnv where
  uploadResult : Except String Unit := .ok ()
  statResult : Except String Int := .ok 0
  clientResult : Except String Unit := .ok ()
  getObjectResult : Except String Unit := .ok ()
  createFileResult : Except String Unit := .ok ()
  copyResult : Except String Int := .ok 0
  deleteResult : Except String Unit := .ok ()
  listResult : Except String (List ListedObject) := .ok []
  now : String := ""
deriving DecidableEq, Repr

/-- Modelled from the spec: `semantic.ExtractS3Credentials` lives in the
external eve library and is absent from src/; per §4.2 it produces
(endpointURL, region, accessKey, secretKey, bucketName) from the target
descriptor or fails with a MissingCredentials error if any required field is
absent. -/
def ExtractS3Credentials (t : S3Bucket) : Except String S3Creds :=
  if t.url = "" then .error "MissingCredentials: endpoint URL"
  else if t.region = "" then .error "MissingCredentials: region"
  else if t.accessKey = "" then .error "MissingCredentials: access key"
  else if t.secretKey = "" then .error "MissingCredentials: secret key"
  else if t.bucketName = "" then .error "MissingCredentials: bucket name"
  else .ok { url := t.url, region := t.region, accessKey := t.accessKey,
             secretKey := t.secretKey, bucketName := t.bucketName }

/-- Go `filepath.Base` on the unix separator: empty path gives ".", trailing
slashes are stripped, everything up to the last slash is dropped, and an
all-slash path gives "/". -/
def filepathBase (p : String) : String :=
  if p = "" then "."
  else
    let stripped := (p.data.reverse.dropWhile (fun c => c = '/')).reverse
    let last := (stripped.reverse.takeWhile (fun c => c ≠ '/')).reverse
    if last.isEmpty then "/" else String.mk last

/-- Go `filepath.Join("/tmp", name)` specialized to the second argument being
a `filepathBase` result (hence "." , "/", "..", or a nonempty slash-free
name): Join drops empty elements and Cleans the result, so "." and "/"
collapse to "/tmp" and ".." climbs to "/". -/
def filepathJoinTmp (name : String) : String :=
  if name = "" then "/tmp"
  else if name = "." then "/tmp"
  else if name = "/" then "/tmp"
  else if name = ".." then "/"
  else "/tmp/" ++ name

/-- A handler's outcome: HTTP status code, the mutated envelope serialized in
the response body, and the store calls attempted along the way. -/
structure HandlerResult where
  httpStatus : Nat
  action : SemanticAction
  calls : List StoreCall
deriving DecidableEq, Repr

/-- Error helper (part_002 lines 641-668): sets `FailedActionStatus`, embeds
the message as a PropertyValue named "error", stamps EndTime, and responds
with HTTP 500 (`http.StatusInternalServerError`). The `calls` argument
threads through the store calls attempted before the failure. -/
def returnError (a : SemanticAction) (message : String) (now : String)
    (calls : List StoreCall) : HandlerResult :=
  { httpStatus := 500
    action := { a with
      actionStatus := .FailedActionStatus
      error := some { type_ := "PropertyValue", name := "error", value := message }
      endTime := now }
    calls := calls }

/-- Upload handler (part_002 lines 398-450, matching cmd/semantic_api.go
lines 56-114): stamp StartTime; extract credentials; require an object with a
non-empty contentUrl (the local file path); resolve the S3 key as TargetUrl,
else the object identifier, else the base name of the file path; call
HetznerUploadFile; on success stat the local file and, only if the stat
succeeds, populate the result descriptor; finish Completed with HTTP 200. -/
def executeUploadAction (env : StoreEnv) (a0 : SemanticAction) : HandlerResult :=
  let a := { a0 with startTime := env.now }
  match ExtractS3Credentials a.target with
  | .error e => returnError a ("Failed to extract S3 credentials: " ++ e) env.now []
  | .ok creds =>
    match a.object with
    | none => returnError a "Object is required" env.now []
    | some obj =>
      if obj.contentUrl = "" then
        returnError a "Object contentUrl (file path) is required" env.now []
      else
        let filePath := obj.contentUrl
        let s3Key :=
          if a.targetUrl = "" then
            (if obj.identifier = "" then filepathBase filePath else obj.identifier)
          else a.targetUrl
        let call := StoreCall.uploadFile creds.url creds.accessKey creds.secretKey
          creds.bucketName filePath s3Key
        match env.uploadResult with
        | .error e => returnError a ("Failed to upload file: " ++ e) env.now [call]
        | .ok _ =>
          let a' :=
            match env.statResult with
            | .ok size =>
              { a with result := some (.obj {
                  type_ := "MediaObject"
                  identifier := s3Key
                  name := filepathBase filePath
                  contentUrl := "s3://" ++ creds.bucketName ++ "/" ++ s3Key
                  contentSize := size
                  encodingFormat := obj.encodingFormat
                  uploadDate := env.now }) }
            | .error _ => a
          { httpStatus := 200
            action := { a' with actionStatus := .CompletedActionStatus, endTime := env.now }
            calls := [call] }

/-- Download handler (part_002 lines 453-524, matching cmd/semantic_api.go
lines 117-194): stamp StartTime; extract credentials; require an object;
resolve the S3 key as the identifier, else the name, failing if both are
empty; resolve the local path as the object contentUrl, else
/tmp/<base of key>; create the client; GetObject; create the local file; copy
the body; populate the result descriptor; finish Completed with HTTP 200. -/
def executeDownloadAction (env : StoreEnv) (a0 : SemanticAction) : HandlerResult :=
  let a := { a0 with startTime := env.now }
  match ExtractS3Credentials a.target with
  | .error e => returnError a ("Failed to extract S3 credentials: " ++ e) env.now []
  | .ok creds =>
    match a.object with
    | none => returnError a "Object is required" env.now []
    | some obj =>
      let s3Key := if obj.identifier = "" then obj.name else obj.identifier
      if s3Key = "" then
        returnError a "Object identifier (S3 key) is required" env.now []
      else
        let downloadPath :=
          if obj.contentUrl = "" then filepathJoinTmp (filepathBase s3Key)
          else obj.contentUrl
        match env.clientResult with
        | .error e => returnError a ("Failed to create S3 client: " ++ e) env.now []
        | .ok _ =>
          let call := StoreCall.getObject creds.bucketName s3Key
          match env.getObjectResult with
          | .error e => returnError a ("Failed to download file: " ++ e) env.now [call]
          | .ok _ =>
            match env.createFileResult with
            | .error e => returnError a ("Failed to create local file: " ++ e) env.now [call]
            | .ok _ =>
              match env.copyResult with
              | .error e => returnError a ("Failed to write file: " ++ e) env.now [call]
              | .ok size =>
                { httpStatus := 200
                  action := { a with
                    result := some (.obj {
                      type_ := "MediaObject"
                      identifier := s3Key
                      name := filepathBase s3Key
                      contentUrl := downloadPath
                      contentSize := size
                      encodingFormat := obj.encodingFormat })
                    actionStatus := .CompletedActionStatus
                    endTime := env.now }
                  calls := [call] }

/-- Delete handler (part_002 lines 527-569, matching cmd/semantic_api.go
lines 197-244): stamp StartTime; extract credentials; require an object;
resolve the S3 key as the identifier, else the name, failing if both are
empty; create the client; DeleteObject; finish Completed with HTTP 200. No
result descriptor is ever populated on success. -/
def executeDeleteAction (env : StoreEnv) (a0 : SemanticAction) : HandlerResult :=
  let a := { a0 with startTime := env.now }
  match ExtractS3Credentials a.target with
  | .error e => returnError a ("Failed to extract S3 credentials: " ++ e) env.now []
  | .ok creds =>
    match a.object with
    | none => returnError a "Object is required" env.now []
    | some obj =>
      let s3Key := if obj.identifier = "" then obj.name else obj.identifier
      if s3Key = "" then
        returnError a "Object identifier (S3 key) is required" env.now []
      else
        match env.clientResult with
        | .error e => returnError a ("Failed to create S3 client: " ++ e) env.now []
        | .ok _ =>
          let call := StoreCall.deleteObject creds.bucketName s3Key
          match env.deleteResult with
          | .error e => returnError a ("Failed to delete file: " ++ e) env.now [call]
          | .ok _ =>
            { httpStatus := 200
              action := { a with actionStatus := .CompletedActionStatus, endTime := env.now }
              calls := [call] }

/-- List handler (part_002 lines 572-619, matching cmd/semantic_api.go
lines 247-299): stamp StartTime; extract credentials; create the client;
issue a single ListObjectsV2 with Prefix set to the action's query exactly
when that query is non-empty; map the returned page onto object descriptors;
finish Completed with HTTP 200. -/
def executeListAction (env : StoreEnv) (a0 : SemanticAction) : HandlerResult :=
  let a := { a0 with startTime := env.now }
  match ExtractS3Credentials a.target with
  | .error e => returnError a ("Failed to extract S3 credentials: " ++ e) env.now []
  | .ok creds =>
    match env.clientResult with
    | .error e => returnError a ("Failed to create S3 client: " ++ e) env.now []
    | .ok _ =>
      let pfx := if a.query = "" then none else some a.query
      let call := StoreCall.listObjectsV2 creds.bucketName pfx
      match env.listResult with
      | .error e => returnError a ("Failed to list objects: " ++ e) env.now [call]
      | .ok contents =>
        let objects : List S3Object := contents.map (fun o =>
          { type_ := "MediaObject"
            identifier := o.key
            name := filepathBase o.key
            contentUrl := "s3://" ++ creds.bucketName ++ "/" ++ o.key
            contentSize := o.size
            uploadDate := o.lastModified })
        { httpStatus := 200
          action := { a with
            result := some (.objs objects)
            actionStatus := .CompletedActionStatus
            endTime := env.now }
          calls := [call] }

/-- Outcome of the top-level semantic endpoint: either an echo HTTPError
(parse/dispatch failure) or a handler's result. -/
inductive DispatchResult where
  | httpError (status : Nat) (message : String)
  | handled (r : HandlerResult)
deriving DecidableEq, Repr

/-- Dispatcher (cmd/semantic_api.go lines 37-53): switch on the @type
discriminator routing CreateAction to upload, DownloadAction to download,
DeleteAction to delete and SearchAction to list, with the default branch
returning HTTP 400 "Unsupported action type". -/
def handleSemanticAction (env : StoreEnv) (a : SemanticAction) : DispatchResult :=
  match a.type_ with
  | "CreateAction" => .handled (executeUploadAction env a)
  | "DownloadAction" => .handled (executeDownloadAction env a)
  | "DeleteAction" => .handled (executeDeleteAction env a)
  | "SearchAction" => .handled (executeListAction env a)
  | t => .httpError 400 ("Unsupported action type: " ++ t)

/-- Store calls attempted by a dispatch outcome (none for an HTTPError). -/
def DispatchResult.storeCalls : DispatchResult → List StoreCall
  | .httpError _ _ => []
  | .handled r => r.calls

/-- REST upload request body (rest adapter): key, base64 content, optional
bucket. -/
structure UploadObjectRequest where
  key : String := ""
  content : String := ""
  bucket : String := ""
deriving DecidableEq, Repr

/-- REST create-bucket request body. -/
structure CreateBucketRequest where
  name : String := ""
deriving DecidableEq, Repr

/-- The JSON-LD envelope a REST adapter function builds before re-invoking
the semantic handler: @type discriminator, the object map's fields, the
optional bucket instrument, and the top-level query. -/
structure RestEnvelope where
  type_ : String := ""
  objectType : String := ""
  objectIdentifier : String := ""
  objectText : String := ""
  objectName : String := ""
  instrumentBucket : Option String := none
  query : String := ""
deriving DecidableEq, Repr

/-- Outcome of a REST adapter function: a direct JSON response bearing an
HTTP status (the validation failures), or a converted envelope passed on to
`handleSemanticAction` via callSemanticHandler. -/
inductive RestOutcome where
  | direct (status : Nat) (message : String)
  | dispatch (envelope : RestEnvelope)
deriving DecidableEq, Repr

/-- REST POST /objects: require key and content, then convert to a
CreateAction envelope with the DigitalDocument object and optional bucket
instrument. -/
def uploadObjectREST (req : UploadObjectRequest) : RestOutcome :=
  if req.key = "" then .direct 400 "key is required"
  else if req.content = "" then .direct 400 "content is required"
  else .dispatch
    { type_ := "CreateAction"
      objectType := "DigitalDocument"
      objectIdentifier := req.key
      objectText := req.content
      instrumentBucket := if req.bucket = "" then none else some req.bucket }

/-- REST GET /objects/:key: require key, then convert to a SearchAction
envelope carrying the key as the object identifier. -/
def getObjectREST (key bucket : String) : RestOutcome :=
  if key = "" then .direct 400 "key is required"
  else .dispatch
    { type_ := "SearchAction"
      objectType := "DigitalDocument"
      objectIdentifier := key
      instrumentBucket := if bucket = "" then none else some bucket }

/-- REST DELETE /objects/:key: require key, then convert to a DeleteAction
envelope carrying the key as the object identifier. -/
def deleteObjectREST (key bucket : String) : RestOutcome :=
  if key = "" then .direct 400 "key is required"
  else .dispatch
    { type_ := "DeleteAction"
      objectType := "DigitalDocument"
      objectIdentifier := key
      instrumentBucket := if bucket = "" then none else some bucket }

/-- REST GET /buckets: always converts to a SearchAction envelope with the
sentinel query "list-buckets". -/
def listBucketsREST : RestOutcome :=
  .dispatch { type_ := "SearchAction", query := "list-buckets" }

/-- REST POST /buckets: require name, then convert to a CreateAction
envelope with a Thing object named after the bucket. -/
def createBucketREST (req : CreateBucketRequest) : RestOutcome :=
  if req.name = "" then .direct 400 "name is required"
  else .dispatch
    { type_ := "CreateAction"
      objectType := "Thing"
      objectName := req.name
      objectIdentifier := "bucket" }

/-- The local destination path recorded on a single-object result (the
download handler writes the chosen path into result.contentUrl). -/
def downloadDest (r : HandlerResult) : Option String :=
  match r.action.result with
  | some (.obj ob) => some ob.contentUrl
  | _ => none

/-- A target descriptor with all five credential fields present, used to
instantiate theorems at concrete inputs. -/
def credsBucket : S3Bucket :=
  { url := "https://fsn1.example", region := "fsn1", accessKey := "AK",
    secretKey := "SK", bucketName := "bkt" }

/-- The credential tuple `ExtractS3Credentials` yields for `credsBucket`. -/
def credsOk : S3Creds :=
  { url := "https://fsn1.example", region := "fsn1", accessKey := "AK",
    secretKey := "SK", bucketName := "bkt" }

/-- A freshly parsed delete action with full credentials and a key. -/
def deleteOkAction : SemanticAction :=
  { type_ := "DeleteAction", target := credsBucket,
    object := some { identifier := "k" } }

/-- An upload action whose request-supplied target key and object identifier
are both non-empty and differ. -/
def uploadPrecAction : SemanticAction :=
  { type_ := "CreateAction", target := credsBucket, targetUrl := "request-key",
    object := some { identifier := "object-id", contentUrl := "/tmp/f.txt" } }

/-- An upload action whose target descriptor carries no credential fields. -/
def noCredsUploadAction : SemanticAction :=
  { type_ := "CreateAction", object := some { contentUrl := "/tmp/f.txt" } }

/-- A list action with full credentials and a non-empty query. -/
def searchOkAction : SemanticAction :=
  { type_ := "SearchAction", target := credsBucket, query := "test/" }

/-- An envelope whose @type is none of the four recognized discriminators. -/
def unknownTypeAction : SemanticAction := { type_ := "BogusAction" }

/-- The environment in which every external call succeeds. -/
def envOk : StoreEnv := {}

/-- The object descriptor with the slash-free key "k.txt" and no local path. -/
def downloadKeyObject : S3Object := { identifier := "k.txt" }

/-- A download action with full credentials and a slash-free key. -/
def downloadKeyAction : SemanticAction :=
  { type_ := "DownloadAction", target := credsBucket,
    object := some downloadKeyObject }

/-- A download action for the key "a/f.txt" with no local content path. -/
def downloadActionA : SemanticAction :=
  { type_ := "DownloadAction", target := credsBucket,
    object := some { identifier := "a/f.txt" } }

/-- A download action for the key "b/f.txt" with no local content path. -/
def downloadActionB : SemanticAction :=
  { type_ := "DownloadAction", target := credsBucket,
    object := some { identifier := "b/f.txt" } }

end S3Service

namespace S3Service

/-- Branch-complete invariant of the upload handler: the failure exits agree
with `returnError` (Failed, embedded error, HTTP 500, result untouched) and
the success exit is Completed with HTTP 200 and no error. -/
theorem executeUploadAction_invariant (env : StoreEnv) (a : SemanticAction)
    (hr : a.result = none) (he : a.error = none) :
    ((executeUploadAction env a).action.actionStatus = ActionStatus.FailedActionStatus ↔
      (executeUploadAction env a).action.error ≠ none) ∧
    ((executeUploadAction env a).action.error ≠ none →
      (executeUploadAction env a).action.result = none) ∧
    ((executeUploadAction env a).action.actionStatus = ActionStatus.CompletedActionStatus →
      (executeUploadAction env a).action.error = none) ∧
    ((executeUploadAction env a).action.actionStatus = ActionStatus.CompletedActionStatus ∨
      (executeUploadAction env a).action.actionStatus = ActionStatus.FailedActionStatus) ∧
    ((executeUploadAction env a).action.actionStatus = ActionStatus.FailedActionStatus →
      (executeUploadAction env a).httpStatus = 500) ∧
    ((executeUploadAction env a).action.actionStatus = ActionStatus.CompletedActionStatus →
      (executeUploadAction env a).httpStatus = 200) := by
  rcases hc : ExtractS3Credentials a.target with e | creds
  · simp [executeUploadAction, hc, returnError, hr, he]
  · rcases hobj : a.object with _ | obj
    · simp [executeUploadAction, hc, hobj, returnError, hr, he]
    · by_cases hcu : obj.contentUrl = ""
      · simp [executeUploadAction, hc, hobj, hcu, returnError, hr, he]
      · rcases hu : env.uploadResult with eu | u
        · simp [executeUploadAction, hc, hobj, hcu, hu, returnError, hr, he]
        · rcases hs : env.statResult with es | size
          · simp [executeUploadAction, hc, hobj, hcu, hu, hs, returnError, hr, he]
          · simp [executeUploadAction, hc, hobj, hcu, hu, hs, returnError, hr, he]

/-- Branch-complete invariant of the download handler, as for upload. -/
theorem executeDownloadAction_invariant (env : StoreEnv) (a : SemanticAction)
    (hr : a.result = none) (he : a.error = none) :
    ((executeDownloadAction env a).action.actionStatus = ActionStatus.FailedActionStatus ↔
      (executeDownloadAction env a).action.error ≠ none) ∧
    ((executeDownloadAction env a).action.error ≠ none →
      (executeDownloadAction env a).action.result = none) ∧
    ((executeDownloadAction env a).action.actionStatus = ActionStatus.CompletedActionStatus →
      (executeDownloadAction env a).action.error = none) ∧
    ((executeDownloadAction env a).action.actionStatus = ActionStatus.CompletedActionStatus ∨
      (executeDownloadAction env a).action.actionStatus = ActionStatus.FailedActionStatus) ∧
    ((executeDownloadAction env a).action.actionStatus = ActionStatus.FailedActionStatus →
      (executeDownloadAction env a).httpStatus = 500) ∧
    ((executeDownloadAction env a).action.actionStatus = ActionStatus.CompletedActionStatus →
      (executeDownloadAction env a).httpStatus = 200) := by
  rcases hc : ExtractS3Credentials a.target with e | creds
  · simp [executeDownloadAction, hc, returnError, hr, he]
  · rcases hobj : a.object with _ | obj
    · simp [executeDownloadAction, hc, hobj, returnError, hr, he]
    · by_cases hk : (if obj.identifier = "" then obj.name else obj.identifier) = ""
      · simp [executeDownloadAction, hc, hobj, hk, returnError, hr, he]
      · rcases hcl : env.clientResult with ec | c
        · simp [executeDownloadAction, hc, hobj, hk, hcl, returnError, hr, he]
        · rcases hg : env.getObjectResult with eg | g
          · simp [executeDownloadAction, hc, hobj, hk, hcl, hg, returnError, hr, he]
          · rcases hcf : env.createFileResult with ef | f
            · simp [executeDownloadAction, hc, hobj, hk, hcl, hg, hcf, returnError, hr, he]
            · rcases hcp : env.copyResult with ep | size
              · simp [executeDownloadAction, hc, hobj, hk, hcl, hg, hcf, hcp, returnError,
                  hr, he]
              · simp [executeDownloadAction, hc, hobj, hk, hcl, hg, hcf, hcp, returnError,
                  hr, he]

/-- Branch-complete invariant of the delete handler, as for upload. -/
theorem executeDeleteAction_invariant (env : StoreEnv) (a : SemanticAction)
    (hr : a.result = none) (he : a.error = none) :
    ((executeDeleteAction env a).action.actionStatus = ActionStatus.FailedActionStatus ↔
      (executeDeleteAction env a).action.error ≠ none) ∧
    ((executeDeleteAction env a).action.error ≠ none →
      (executeDeleteAction env a).action.result = none) ∧
    ((executeDeleteAction env a).action.actionStatus = ActionStatus.CompletedActionStatus →
      (executeDeleteAction env a).action.error = none) ∧
    ((executeDeleteAction env a).action.actionStatus = ActionStatus.CompletedActionStatus ∨
      (executeDeleteAction env a).action.actionStatus = ActionStatus.FailedActionStatus) ∧
    ((executeDeleteAction env a).action.actionStatus = ActionStatus.FailedActionStatus →
      (executeDeleteAction env a).httpStatus = 500) ∧
    ((executeDeleteAction env a).action.actionStatus = ActionStatus.CompletedActionStatus →
      (executeDeleteAction env a).httpStatus = 200) := by
  rcases hc : ExtractS3Credentials a.target with e | creds
  · simp [executeDeleteAction, hc, returnError, hr, he]
  · rcases hobj : a.object with _ | obj
    · simp [executeDeleteAction, hc, hobj, returnError, hr, he]
    · by_cases hk : (if obj.identifier = "" then obj.name else obj.identifier) = ""
      · simp [executeDeleteAction, hc, hobj, hk, returnError, hr, he]
      · rcases hcl : env.clientResult with ec | c
        · simp [executeDeleteAction, hc, hobj, hk, hcl, returnError, hr, he]
        · rcases hd : env.deleteResult with ed | d
          · simp [executeDeleteAction, hc, hobj, hk, hcl, hd, returnError, hr, he]
          · simp [executeDeleteAction, hc, hobj, hk, hcl, hd, returnError, hr, he]

/-- Branch-complete invariant of the list handler, as for upload. -/
theorem executeListAction_invariant (env : StoreEnv) (a : SemanticAction)
    (hr : a.result = none) (he : a.error = none) :
    ((executeListAction env a).action.actionStatus = ActionStatus.FailedActionStatus ↔
      (executeListAction env a).action.error ≠ none) ∧
    ((executeListAction env a).action.error ≠ none →
      (executeListAction env a).action.result = none) ∧
    ((executeListAction env a).action.actionStatus = ActionStatus.CompletedActionStatus →
      (executeListAction env a).action.error = none) ∧
    ((executeListAction env a).action.actionStatus = ActionStatus.CompletedActionStatus ∨
      (executeListAction env a).action.actionStatus = ActionStatus.FailedActionStatus) ∧
    ((executeListAction env a).action.actionStatus = ActionStatus.FailedActionStatus →
      (executeListAction env a).httpStatus = 500) ∧
    ((executeListAction env a).action.actionStatus = ActionStatus.CompletedActionStatus →
      (executeListAction env a).httpStatus = 200) := by
  rcases hc : ExtractS3Credentials a.target with e | creds
  · simp [executeListAction, hc, returnError, hr, he]
  · rcases hcl : env.clientResult with ec | c
    · simp [executeListAction, hc, hcl, returnError, hr, he]
    · rcases hl : env.listResult with el | contents
      · simp [executeListAction, hc, hcl, hl, returnError, hr, he]
      · simp [executeListAction, hc, hcl, hl, returnError, hr, he]

end S3Service

namespace S3Service

/-- C1 (amended): for every freshly parsed action (no result, no error) and
every outcome of the external calls, each of the four handlers terminates
with: status Failed exactly when an error is populated and the result is
absent; status Completed only with the error absent; never both result and
error populated; and the status always terminal (Completed or Failed). The
original claim's requirement that Completed have a populated result fails:
the delete handler never populates one. -/
theorem C1_result_error_discipline (env : StoreEnv) (a : SemanticAction)
    (hr : a.result = none) (he : a.error = none) :
    ∀ r ∈ [executeUploadAction env a, executeDownloadAction env a,
           executeDeleteAction env a, executeListAction env a],
      ((r.action.actionStatus = ActionStatus.FailedActionStatus ↔
          r.action.error ≠ none ∧ r.action.result = none) ∧
        (r.action.actionStatus = ActionStatus.CompletedActionStatus →
          r.action.error = none) ∧
        ¬(r.action.result ≠ none ∧ r.action.error ≠ none) ∧
        (r.action.actionStatus = ActionStatus.CompletedActionStatus ∨
          r.action.actionStatus = ActionStatus.FailedActionStatus)) := by
  have step : ∀ r : HandlerResult,
      (((r.action.actionStatus = ActionStatus.FailedActionStatus ↔
          r.action.error ≠ none) ∧
        (r.action.error ≠ none → r.action.result = none) ∧
        (r.action.actionStatus = ActionStatus.CompletedActionStatus →
          r.action.error = none) ∧
        (r.action.actionStatus = ActionStatus.CompletedActionStatus ∨
          r.action.actionStatus = ActionStatus.FailedActionStatus) ∧
        (r.action.actionStatus = ActionStatus.FailedActionStatus → r.httpStatus = 500) ∧
        (r.action.actionStatus = ActionStatus.CompletedActionStatus →
          r.httpStatus = 200))) →
      ((r.action.actionStatus = ActionStatus.FailedActionStatus ↔
          r.action.error ≠ none ∧ r.action.result = none) ∧
        (r.action.actionStatus = ActionStatus.CompletedActionStatus →
          r.action.error = none) ∧
        ¬(r.action.result ≠ none ∧ r.action.error ≠ none) ∧
        (r.action.actionStatus = ActionStatus.CompletedActionStatus ∨
          r.action.actionStatus = ActionStatus.FailedActionStatus)) := by
    rintro r ⟨c1, c2, c3, c4, -, -⟩
    exact ⟨⟨fun hf => ⟨c1.mp hf, c2 (c1.mp hf)⟩, fun hh => c1.mpr hh.1⟩, c3,
      fun hh => hh.1 (c2 hh.2), c4⟩
  intro r hmem
  simp only [List.mem_cons, List.not_mem_nil, or_false] at hmem
  rcases hmem with h | h | h | h <;> subst h
  · exact step _ (executeUploadAction_invariant env a hr he)
  · exact step _ (executeDownloadAction_invariant env a hr he)
  · exact step _ (executeDeleteAction_invariant env a hr he)
  · exact step _ (executeListAction_invariant env a hr he)

/-- C1 witness: the discipline facts evaluated at the concrete delete action
with full credentials and the all-success environment. -/
theorem C1_result_error_discipline_witness :
    ((executeDeleteAction {} deleteOkAction).action.actionStatus =
        ActionStatus.FailedActionStatus ↔
      (executeDeleteAction {} deleteOkAction).action.error ≠ none ∧
      (executeDeleteAction {} deleteOkAction).action.result = none) ∧
    ((executeDeleteAction {} deleteOkAction).action.actionStatus =
        ActionStatus.CompletedActionStatus →
      (executeDeleteAction {} deleteOkAction).action.error = none) ∧
    ¬((executeDeleteAction {} deleteOkAction).action.result ≠ none ∧
      (executeDeleteAction {} deleteOkAction).action.error ≠ none) ∧
    ((executeDeleteAction {} deleteOkAction).action.actionStatus =
        ActionStatus.CompletedActionStatus ∨
      (executeDeleteAction {} deleteOkAction).action.actionStatus =
        ActionStatus.FailedActionStatus) :=
  C1_result_error_discipline {} deleteOkAction rfl rfl
    (executeDeleteAction {} deleteOkAction) (by simp)

/-- C1 counterexample: a successful delete reaches the terminal status
Completed with neither a result nor an error populated, so the claimed
equivalence "Completed iff result populated and error absent" is false. -/
theorem C1_counterexample :
    ¬ (((executeDeleteAction {} deleteOkAction).action.actionStatus =
          ActionStatus.CompletedActionStatus)
        ↔ ((executeDeleteAction {} deleteOkAction).action.result ≠ none ∧
            (executeDeleteAction {} deleteOkAction).action.error = none)) := by
  decide

end S3Service

namespace S3Service

/-- C2 (amended): for every upload action with a non-empty local content
path and resolvable credentials, exactly one store upload is attempted, and
the remote key follows this precedence: the request-supplied target key if
non-empty, otherwise the object identifier if non-empty, otherwise the base
name of the local file path. (The original claim put the object identifier
ahead of the target key; the code checks TargetUrl first.) -/
theorem C2_upload_key_precedence (env : StoreEnv) (a : SemanticAction)
    (o : S3Object) (creds : S3Creds) (hobj : a.object = some o)
    (hcu : o.contentUrl ≠ "") (hc : ExtractS3Credentials a.target = .ok creds) :
    ∃ k, (executeUploadAction env a).calls =
        [StoreCall.uploadFile creds.url creds.accessKey creds.secretKey
          creds.bucketName o.contentUrl k] ∧
      (a.targetUrl ≠ "" → k = a.targetUrl) ∧
      (a.targetUrl = "" → o.identifier ≠ "" → k = o.identifier) ∧
      (a.targetUrl = "" → o.identifier = "" → k = filepathBase o.contentUrl) := by
  refine ⟨if a.targetUrl = "" then
      (if o.identifier = "" then filepathBase o.contentUrl else o.identifier)
    else a.targetUrl, ?_, ?_, ?_, ?_⟩
  · rcases hu : env.uploadResult with eu | u <;>
      rcases hs : env.statResult with es | s <;>
        simp [executeUploadAction, hc, hobj, hcu, hu, hs, returnError]
  · intro h
    simp [h]
  · intro h1 h2
    simp [h1, h2]
  · intro h1 h2
    simp [h1, h2]

/-- C2 witness: the precedence facts evaluated at a concrete upload action
carrying both a target key and an object identifier. -/
theorem C2_upload_key_precedence_witness :
    ∃ k, (executeUploadAction {} uploadPrecAction).calls =
        [StoreCall.uploadFile credsOk.url credsOk.accessKey credsOk.secretKey
          credsOk.bucketName "/tmp/f.txt" k] ∧
      (uploadPrecAction.targetUrl ≠ "" → k = uploadPrecAction.targetUrl) ∧
      (uploadPrecAction.targetUrl = "" → "object-id" ≠ "" → k = "object-id") ∧
      (uploadPrecAction.targetUrl = "" → "object-id" = "" →
        k = filepathBase "/tmp/f.txt") :=
  C2_upload_key_precedence {} uploadPrecAction
    { identifier := "object-id", contentUrl := "/tmp/f.txt" } credsOk
    rfl (by decide) rfl

/-- C2 counterexample: with object identifier "object-id" and target key
"request-key" both non-empty, the upload is keyed by the target key, not by
the identifier as the claim's precedence predicts. -/
theorem C2_counterexample :
    (executeUploadAction {} uploadPrecAction).calls =
      [StoreCall.uploadFile "https://fsn1.example" "AK" "SK" "bkt"
        "/tmp/f.txt" "request-key"] ∧
    ¬ (executeUploadAction {} uploadPrecAction).calls =
      [StoreCall.uploadFile "https://fsn1.example" "AK" "SK" "bkt"
        "/tmp/f.txt" "object-id"] := by
  decide

/-- C3 (amended): when a handler hits a business-logic failure (credential
extraction, local file I/O, or store-call failure), the failure is carried
in-band — the envelope's status is set to Failed and the error message is
embedded — but the HTTP response status is 500 (the repository's returnError
helper responds with http.StatusInternalServerError), not 200 as claimed. -/
theorem C3_business_failure_inband (env : StoreEnv) (a : SemanticAction)
    (hr : a.result = none) (he : a.error = none) :
    ∀ r ∈ [executeUploadAction env a, executeDownloadAction env a,
           executeDeleteAction env a, executeListAction env a],
      (r.action.actionStatus = ActionStatus.FailedActionStatus →
        r.httpStatus = 500 ∧ r.action.error ≠ none) := by
  intro r hmem hf
  simp only [List.mem_cons, List.not_mem_nil, or_false] at hmem
  rcases hmem with h | h | h | h <;> subst h
  · obtain ⟨c1, -, -, -, c5, -⟩ := executeUploadAction_invariant env a hr he
    exact ⟨c5 hf, c1.mp hf⟩
  · obtain ⟨c1, -, -, -, c5, -⟩ := executeDownloadAction_invariant env a hr he
    exact ⟨c5 hf, c1.mp hf⟩
  · obtain ⟨c1, -, -, -, c5, -⟩ := executeDeleteAction_invariant env a hr he
    exact ⟨c5 hf, c1.mp hf⟩
  · obtain ⟨c1, -, -, -, c5, -⟩ := executeListAction_invariant env a hr he
    exact ⟨c5 hf, c1.mp hf⟩

/-- C3 witness: the in-band facts evaluated at the concrete upload action
whose target is missing all credentials, which does fail. -/
theorem C3_business_failure_inband_witness :
    (executeUploadAction {} noCredsUploadAction).httpStatus = 500 ∧
    (executeUploadAction {} noCredsUploadAction).action.error ≠ none :=
  C3_business_failure_inband {} noCredsUploadAction rfl rfl
    (executeUploadAction {} noCredsUploadAction) (by simp) (by decide)

/-- C3 counterexample: an upload whose credential extraction fails has the
failure carried in-band (status Failed, error embedded) but the HTTP
response status is not 200, falsifying the claim's "status is 200". -/
theorem C3_counterexample :
    (executeUploadAction {} noCredsUploadAction).action.actionStatus =
      ActionStatus.FailedActionStatus ∧
    (executeUploadAction {} noCredsUploadAction).action.error ≠ none ∧
    ¬ (executeUploadAction {} noCredsUploadAction).httpStatus = 200 := by
  decide

end S3Service

namespace S3Service

/-- C4: for every envelope whose @type discriminator is none of CreateAction,
DownloadAction, DeleteAction or SearchAction, the dispatcher answers HTTP 400
with an explicit unsupported-action error, no handler runs and no store call
is attempted. -/
theorem C4_unsupported_action_rejected (env : StoreEnv) (a : SemanticAction)
    (h1 : a.type_ ≠ "CreateAction") (h2 : a.type_ ≠ "DownloadAction")
    (h3 : a.type_ ≠ "DeleteAction") (h4 : a.type_ ≠ "SearchAction") :
    handleSemanticAction env a =
      DispatchResult.httpError 400 ("Unsupported action type: " ++ a.type_) ∧
    (handleSemanticAction env a).storeCalls = [] := by
  have hmain : handleSemanticAction env a =
      DispatchResult.httpError 400 ("Unsupported action type: " ++ a.type_) := by
    unfold handleSemanticAction
    split <;> simp_all
  exact ⟨hmain, by rw [hmain]; rfl⟩

/-- C4 witness: the rejection evaluated at a concrete envelope with the
unrecognized @type "BogusAction". -/
theorem C4_unsupported_action_rejected_witness :
    handleSemanticAction {} unknownTypeAction =
      DispatchResult.httpError 400
        ("Unsupported action type: " ++ unknownTypeAction.type_) ∧
    (handleSemanticAction {} unknownTypeAction).storeCalls = [] :=
  C4_unsupported_action_rejected {} unknownTypeAction
    (by decide) (by decide) (by decide) (by decide)

/-- C5: for every action whose target descriptor is missing a required
credential field, each of the four handlers terminates with status Failed
carrying the credential-extraction error message, and no store call is
attempted. -/
theorem C5_missing_credentials_no_store_call (env : StoreEnv)
    (a : SemanticAction)
    (h : a.target.url = "" ∨ a.target.region = "" ∨ a.target.accessKey = "" ∨
      a.target.secretKey = "" ∨ a.target.bucketName = "") :
    ∀ r ∈ [executeUploadAction env a, executeDownloadAction env a,
           executeDeleteAction env a, executeListAction env a],
      (r.action.actionStatus = ActionStatus.FailedActionStatus ∧
        (∃ e, r.action.error = some
          { type_ := "PropertyValue", name := "error",
            value := "Failed to extract S3 credentials: " ++ e }) ∧
        r.calls = []) := by
  have hx : ∃ e, ExtractS3Credentials a.target = .error e := by
    unfold ExtractS3Credentials
    repeat' split
    all_goals simp_all
  obtain ⟨e, hce⟩ := hx
  intro r hmem
  simp only [List.mem_cons, List.not_mem_nil, or_false] at hmem
  rcases hmem with hm | hm | hm | hm <;> subst hm
  · exact ⟨by simp [executeUploadAction, hce, returnError],
      ⟨e, by simp [executeUploadAction, hce, returnError]⟩,
      by simp [executeUploadAction, hce, returnError]⟩
  · exact ⟨by simp [executeDownloadAction, hce, returnError],
      ⟨e, by simp [executeDownloadAction, hce, returnError]⟩,
      by simp [executeDownloadAction, hce, returnError]⟩
  · exact ⟨by simp [executeDeleteAction, hce, returnError],
      ⟨e, by simp [executeDeleteAction, hce, returnError]⟩,
      by simp [executeDeleteAction, hce, returnError]⟩
  · exact ⟨by simp [executeListAction, hce, returnError],
      ⟨e, by simp [executeListAction, hce, returnError]⟩,
      by simp [executeListAction, hce, returnError]⟩

/-- C5 witness: the no-store-call facts evaluated at the concrete upload
action whose target descriptor is entirely empty. -/
theorem C5_missing_credentials_no_store_call_witness :
    (executeUploadAction {} noCredsUploadAction).action.actionStatus =
        ActionStatus.FailedActionStatus ∧
      (∃ e, (executeUploadAction {} noCredsUploadAction).action.error = some
        { type_ := "PropertyValue", name := "error",
          value := "Failed to extract S3 credentials: " ++ e }) ∧
      (executeUploadAction {} noCredsUploadAction).calls = [] :=
  C5_missing_credentials_no_store_call {} noCredsUploadAction (Or.inl rfl)
    (executeUploadAction {} noCredsUploadAction) (by simp)

end S3Service

namespace S3Service

/-- C6: for every download action with resolvable credentials, the remote key
is the object identifier if non-empty, otherwise the object name; if both are
empty the handler fails with the missing-object-key error before any store
call; when the key resolves, the local destination recorded on the result is
the request-supplied content path if non-empty, otherwise the default path
derived from the key. -/
theorem C6_download_key_resolution (env : StoreEnv) (a : SemanticAction)
    (o : S3Object) (creds : S3Creds) (hobj : a.object = some o)
    (hc : ExtractS3Credentials a.target = .ok creds) :
    ((o.identifier = "" ∧ o.name = "") →
      (executeDownloadAction env a).action.actionStatus =
          ActionStatus.FailedActionStatus ∧
        (executeDownloadAction env a).action.error = some
          { type_ := "PropertyValue", name := "error",
            value := "Object identifier (S3 key) is required" } ∧
        (executeDownloadAction env a).calls = []) ∧
    (¬(o.identifier = "" ∧ o.name = "") →
      ∃ k, (o.identifier ≠ "" → k = o.identifier) ∧
        (o.identifier = "" → k = o.name) ∧
        (env.clientResult = .ok () →
          (executeDownloadAction env a).calls =
            [StoreCall.getObject creds.bucketName k]) ∧
        (∀ size : Int, env.clientResult = .ok () → env.getObjectResult = .ok () →
          env.createFileResult = .ok () → env.copyResult = .ok size →
          downloadDest (executeDownloadAction env a) =
            some (if o.contentUrl = "" then filepathJoinTmp (filepathBase k)
              else o.contentUrl))) := by
  constructor
  · rintro ⟨h1, h2⟩
    refine ⟨?_, ?_, ?_⟩ <;> simp [executeDownloadAction, hc, hobj, h1, h2, returnError]
  · intro hne
    have hkne : (if o.identifier = "" then o.name else o.identifier) ≠ "" := by
      by_cases hid : o.identifier = ""
      · simp only [hid, if_true]
        intro hname
        exact hne ⟨hid, hname⟩
      · simp [hid]
    refine ⟨if o.identifier = "" then o.name else o.identifier, ?_, ?_, ?_, ?_⟩
    · intro hid
      simp [hid]
    · intro hid
      simp [hid]
    · intro hcl
      rcases hg : env.getObjectResult with eg | g <;>
        rcases hcf : env.createFileResult with ef | f <;>
          rcases hcp : env.copyResult with ep | size <;>
            simp [executeDownloadAction, hc, hobj, hkne, hcl, hg, hcf, hcp, returnError]
    · intro size hcl hg hcf hcp
      simp [executeDownloadAction, hc, hobj, hkne, hcl, hg, hcf, hcp, returnError,
        downloadDest]

/-- C6 witness: the key-resolution facts evaluated at the concrete download
action for key "k.txt" with full credentials in the all-success environment. -/
theorem C6_download_key_resolution_witness :
    ((downloadKeyObject.identifier = "" ∧ downloadKeyObject.name = "") →
      (executeDownloadAction envOk downloadKeyAction).action.actionStatus =
          ActionStatus.FailedActionStatus ∧
        (executeDownloadAction envOk downloadKeyAction).action.error = some
          { type_ := "PropertyValue", name := "error",
            value := "Object identifier (S3 key) is required" } ∧
        (executeDownloadAction envOk downloadKeyAction).calls = []) ∧
    (¬(downloadKeyObject.identifier = "" ∧ downloadKeyObject.name = "") →
      ∃ k, (downloadKeyObject.identifier ≠ "" → k = downloadKeyObject.identifier) ∧
        (downloadKeyObject.identifier = "" → k = downloadKeyObject.name) ∧
        (envOk.clientResult = .ok () →
          (executeDownloadAction envOk downloadKeyAction).calls =
            [StoreCall.getObject credsOk.bucketName k]) ∧
        (∀ size : Int, envOk.clientResult = .ok () →
          envOk.getObjectResult = .ok () →
          envOk.createFileResult = .ok () → envOk.copyResult = .ok size →
          downloadDest (executeDownloadAction envOk downloadKeyAction) =
            some (if downloadKeyObject.contentUrl = "" then
                filepathJoinTmp (filepathBase k)
              else downloadKeyObject.contentUrl))) :=
  C6_download_key_resolution envOk downloadKeyAction downloadKeyObject credsOk
    rfl rfl

end S3Service

namespace S3Service

/-- C7: for every list action with resolvable credentials and a created
client, exactly one single-page ListObjectsV2 call is made, with the prefix
filter set to the action's query field exactly when that field is non-empty
and unset otherwise; no pagination loop follows. -/
theorem C7_list_single_page_call (env : StoreEnv) (a : SemanticAction)
    (creds : S3Creds) (hc : ExtractS3Credentials a.target = .ok creds)
    (hcl : env.clientResult = .ok ()) :
    ∃ p, (executeListAction env a).calls =
        [StoreCall.listObjectsV2 creds.bucketName p] ∧
      (a.query ≠ "" → p = some a.query) ∧
      (a.query = "" → p = none) := by
  refine ⟨if a.query = "" then none else some a.query, ?_, ?_, ?_⟩
  · rcases hl : env.listResult with el | cs <;>
      simp [executeListAction, hc, hcl, hl, returnError]
  · intro h
    simp [h]
  · intro h
    simp [h]

/-- C7 witness: the single-call fact evaluated at the concrete list action
with query "test/" and full credentials in the all-success environment. -/
theorem C7_list_single_page_call_witness :
    ∃ p, (executeListAction envOk searchOkAction).calls =
        [StoreCall.listObjectsV2 credsOk.bucketName p] ∧
      (searchOkAction.query ≠ "" → p = some searchOkAction.query) ∧
      (searchOkAction.query = "" → p = none) :=
  C7_list_single_page_call envOk searchOkAction credsOk rfl rfl

/-- C8: every REST-specific validation failure — a missing key or missing
content on object upload, a missing key on object download or delete, a
missing name on bucket creation — yields a direct HTTP 400 from the REST
adapter, so the request is never converted to an envelope and the semantic
dispatcher is never invoked. -/
theorem C8_rest_validation_direct_400 :
    (∀ req : UploadObjectRequest, req.key = "" →
      uploadObjectREST req = RestOutcome.direct 400 "key is required") ∧
    (∀ req : UploadObjectRequest, req.key ≠ "" → req.content = "" →
      uploadObjectREST req = RestOutcome.direct 400 "content is required") ∧
    (∀ bucket : String,
      getObjectREST "" bucket = RestOutcome.direct 400 "key is required") ∧
    (∀ bucket : String,
      deleteObjectREST "" bucket = RestOutcome.direct 400 "key is required") ∧
    (∀ req : CreateBucketRequest, req.name = "" →
      createBucketREST req = RestOutcome.direct 400 "name is required") := by
  refine ⟨?_, ?_, ?_, ?_, ?_⟩ <;> intros <;>
    simp_all [uploadObjectREST, getObjectREST, deleteObjectREST, createBucketREST]

/-- C8 witness: the five validation rejections evaluated at concrete
requests. -/
theorem C8_rest_validation_direct_400_witness :
    uploadObjectREST { key := "", content := "c" } =
      RestOutcome.direct 400 "key is required" ∧
    uploadObjectREST { key := "k", content := "" } =
      RestOutcome.direct 400 "content is required" ∧
    getObjectREST "" "b" = RestOutcome.direct 400 "key is required" ∧
    deleteObjectREST "" "b" = RestOutcome.direct 400 "key is required" ∧
    createBucketREST { name := "" } = RestOutcome.direct 400 "name is required" :=
  ⟨C8_rest_validation_direct_400.1 _ rfl,
    C8_rest_validation_direct_400.2.1 _ (by decide) rfl,
    C8_rest_validation_direct_400.2.2.1 "b",
    C8_rest_validation_direct_400.2.2.2.1 "b",
    C8_rest_validation_direct_400.2.2.2.2 _ rfl⟩

/-- C9: every REST GET for a single object converts to an envelope whose
@type is SearchAction, and the dispatcher routes SearchAction to the list
handler; a REST single-object GET therefore executes a bucket listing and
never the download handler. -/
theorem C9_rest_get_dispatches_search_to_list (key bucket : String)
    (env : StoreEnv) (act : SemanticAction) (hk : key ≠ "")
    (ht : act.type_ = "SearchAction") :
    (∃ e, getObjectREST key bucket = RestOutcome.dispatch e ∧
      e.type_ = "SearchAction") ∧
    handleSemanticAction env act =
      DispatchResult.handled (executeListAction env act) := by
  constructor
  · refine ⟨{ type_ := "SearchAction"
              objectType := "DigitalDocument"
              objectIdentifier := key
              instrumentBucket := if bucket = "" then none else some bucket },
      ?_, rfl⟩
    simp [getObjectREST, hk]
  · simp [handleSemanticAction, ht]

/-- C9 witness: the routing facts evaluated at the concrete key "k" and the
concrete SearchAction envelope. -/
theorem C9_rest_get_dispatches_search_to_list_witness :
    (∃ e, getObjectREST "k" "" = RestOutcome.dispatch e ∧
      e.type_ = "SearchAction") ∧
    handleSemanticAction envOk searchOkAction =
      DispatchResult.handled (executeListAction envOk searchOkAction) :=
  C9_rest_get_dispatches_search_to_list "k" "" envOk searchOkAction
    (by decide) rfl

/-- C10: for download actions that supply no local content path, the default
destination is the base name of the resolved key joined under /tmp, so two
keys with the same base name (their directory components stripped) are
written to the same local file. -/
theorem C10_default_download_path_collision (env : StoreEnv)
    (a1 a2 : SemanticAction) (o1 o2 : S3Object) (c1 c2 : S3Creds) (size : Int)
    (h1 : a1.object = some o1) (h2 : a2.object = some o2)
    (hcu1 : o1.contentUrl = "") (hcu2 : o2.contentUrl = "")
    (hk1 : o1.identifier ≠ "") (hk2 : o2.identifier ≠ "")
    (hc1 : ExtractS3Credentials a1.target = .ok c1)
    (hc2 : ExtractS3Credentials a2.target = .ok c2)
    (hcl : env.clientResult = .ok ()) (hg : env.getObjectResult = .ok ())
    (hcf : env.createFileResult = .ok ()) (hcp : env.copyResult = .ok size) :
    downloadDest (executeDownloadAction env a1) =
      some (filepathJoinTmp (filepathBase o1.identifier)) ∧
    (filepathBase o1.identifier = filepathBase o2.identifier →
      downloadDest (executeDownloadAction env a1) =
        downloadDest (executeDownloadAction env a2)) := by
  have d1 : downloadDest (executeDownloadAction env a1) =
      some (filepathJoinTmp (filepathBase o1.identifier)) := by
    simp [executeDownloadAction, hc1, h1, hcu1, hk1, hcl, hg, hcf, hcp,
      downloadDest]
  have d2 : downloadDest (executeDownloadAction env a2) =
      some (filepathJoinTmp (filepathBase o2.identifier)) := by
    simp [executeDownloadAction, hc2, h2, hcu2, hk2, hcl, hg, hcf, hcp,
      downloadDest]
  refine ⟨d1, fun hbase => ?_⟩
  rw [d1, d2, hbase]

/-- C10 witness: the distinct keys "a/f.txt" and "b/f.txt" share the base
name "f.txt" and are both written to the default path under /tmp. -/
theorem C10_default_download_path_collision_witness :
    downloadDest (executeDownloadAction envOk downloadActionA) =
      some (filepathJoinTmp (filepathBase "a/f.txt")) ∧
    (filepathBase "a/f.txt" = filepathBase "b/f.txt" →
      downloadDest (executeDownloadAction envOk downloadActionA) =
        downloadDest (executeDownloadAction envOk downloadActionB)) :=
  C10_default_download_path_collision envOk downloadActionA downloadActionB
    { identifier := "a/f.txt" } { identifier := "b/f.txt" } credsOk credsOk 0
    rfl rfl rfl rfl (by decide) (by decide) rfl rfl rfl rfl rfl rfl

end S3Service
